import Mathlib

/-!
Verification development for the Copilot-LMAPI VS Code extension.

The definitions below are shallow embeddings of the TypeScript sources:
* `src/services/FunctionCallService.ts` — tool registry, calculator
  (`safeEval` / `parseExpression`) and the path validator
  (`validateAndNormalizePath`);
* `src/services/ModelDiscoveryService.ts` — pool tiering
  (`updateModelPool`), capability scoring and `selectOptimalModel`;
* `src/utils/Converter.ts` — role mapping, stream chunk construction and
  `extractStreamContent`;
* `src/server/CopilotServer.ts` / `RequestHandler.ts` — the concurrency
  admission check and the token-limit check of `handleChatCompletions`.

JavaScript numbers are modelled as rationals (`ℚ`): every concrete value
used by the claims is exactly representable, division by zero is handled
explicitly by the source before it could occur, and no claim depends on
floating-point rounding.  Timestamps, request ids and similar opaque data
are carried as parameters.
-/

/-- Decidable equality for `Except`, used to settle concrete runs of the
embedded functions by `decide`. -/
instance {ε α : Type} [DecidableEq ε] [DecidableEq α] : DecidableEq (Except ε α) := fun a b =>
  match a, b with
  | .ok x, .ok y => if h : x = y then .isTrue (by rw [h]) else .isFalse (by simp [h])
  | .error e, .error f => if h : e = f then .isTrue (by rw [h]) else .isFalse (by simp [h])
  | .ok _, .error _ => .isFalse (by simp)
  | .error _, .ok _ => .isFalse (by simp)

namespace CopilotLMAPI

/-! ### Calculator: `calculatorHandler`, `safeEval`, `parseExpression`

`FunctionCallService.calculatorHandler` first strips every character that
is not in `[0-9+\-*/().\s]`, rejects an empty remainder, and hands the
string to `safeEval`, which removes whitespace, checks bracket balance,
and runs the recursive-descent parser `parseExpression`.
-/

/-- Error cases of the calculator, one constructor per `throw` site of the
source (`无效数字`, `缺少右括号`, `除零错误`, `表达式末尾有多余字符`,
`括号不匹配`, and the handler's own `无效的数学表达式`). -/
inductive CalcErr where
  | invalidNumber
  | missingCloseParen
  | divByZero
  | trailingChars
  | bracketMismatch
  | invalidExpression
  deriving DecidableEq, Repr

/-- The character class `[0-9+\-*/().\s]` kept by
`expression.replace(/[^0-9+\-*\/().\s]/g, '')`. -/
def allowedChar (c : Char) : Bool :=
  c.isDigit || c == '+' || c == '-' || c == '*' || c == '/' ||
    c == '(' || c == ')' || c == '.' || c.isWhitespace

/-- `expression.replace(/[^0-9+\-*\/().\s]/g, '')`: keep exactly the
allowed characters, in order. -/
def stripExpr (s : String) : String :=
  ⟨s.data.filter allowedChar⟩

/-- Digits of a numeral folded to a natural number. -/
def digitsToNat (cs : List Char) : Nat :=
  cs.foldl (fun n c => 10 * n + (c.toNat - '0'.toNat)) 0

/-- JavaScript `parseFloat` restricted to strings over `[0-9.]` (the only
strings `parseNumber` feeds it): the longest prefix `digits [. digits]`
is converted, `NaN` (here `none`) when no digit is found before an
invalid character. -/
def jsParseFloat (cs : List Char) : Option ℚ :=
  let intDigits := cs.takeWhile Char.isDigit
  let rest := cs.drop intDigits.length
  match rest with
  | '.' :: rest2 =>
      let fracDigits := rest2.takeWhile Char.isDigit
      if intDigits.isEmpty && fracDigits.isEmpty then none
      else some ((digitsToNat intDigits : ℚ) +
        (digitsToNat fracDigits : ℚ) / ((10 : ℚ) ^ fracDigits.length))
  | _ => if intDigits.isEmpty then none else some (digitsToNat intDigits : ℚ)

/-- `parseNumber` of `parseExpression`: collect characters matching
`[\d.]` from position `i`, then `parseFloat`; `NaN` throws `无效数字`. -/
def parseNumberAt (cs : List Char) (i : Nat) : Except CalcErr (ℚ × Nat) :=
  let numChars := (cs.drop i).takeWhile (fun c => c.isDigit || c == '.')
  match jsParseFloat numChars with
  | none => .error .invalidNumber
  | some q => .ok (q, i + numChars.length)

mutual

/-- `parseFactor`: parenthesised sub-expression, unary `-`, unary `+`, or
a number.  `fuel` only bounds the recursion depth; `parseExpression`
supplies enough fuel for any input (each recursive step consumes input or
is guarded by an input character). -/
def parseFactor : Nat → List Char → Nat → Except CalcErr (ℚ × Nat)
  | 0, _, _ => .error .invalidExpression
  | fuel + 1, cs, i =>
    match cs[i]? with
    | some '(' =>
        match parseAddSub fuel cs (i + 1) with
        | .error e => .error e
        | .ok (v, j) =>
            if cs[j]? = some ')' then .ok (v, j + 1)
            else .error .missingCloseParen
    | some '-' =>
        match parseFactor fuel cs (i + 1) with
        | .error e => .error e
        | .ok (v, j) => .ok (-v, j)
    | some '+' => parseFactor fuel cs (i + 1)
    | _ => parseNumberAt cs i
  termination_by structural fuel cs i => fuel

/-- The `while`-loop of `parseMulDiv`: fold `*` and `/` left to right;
`right === 0` under `/` throws `除零错误`. -/
def parseMulDivLoop : Nat → List Char → ℚ → Nat → Except CalcErr (ℚ × Nat)
  | 0, _, _, _ => .error .invalidExpression
  | fuel + 1, cs, acc, i =>
    match cs[i]? with
    | some '*' =>
        match parseFactor fuel cs (i + 1) with
        | .error e => .error e
        | .ok (v, j) => parseMulDivLoop fuel cs (acc * v) j
    | some '/' =>
        match parseFactor fuel cs (i + 1) with
        | .error e => .error e
        | .ok (v, j) =>
            if v = 0 then .error .divByZero
            else parseMulDivLoop fuel cs (acc / v) j
    | _ => .ok (acc, i)
  termination_by structural fuel cs acc i => fuel

/-- `parseMulDiv`: one factor, then the `*`/`/` loop. -/
def parseMulDiv : Nat → List Char → Nat → Except CalcErr (ℚ × Nat)
  | 0, _, _ => .error .invalidExpression
  | fuel + 1, cs, i =>
    match parseFactor fuel cs i with
    | .error e => .error e
    | .ok (v, j) => parseMulDivLoop fuel cs v j
  termination_by structural fuel cs i => fuel

/-- The `while`-loop of `parseAddSub`: fold `+` and `-` left to right. -/
def parseAddSubLoop : Nat → List Char → ℚ → Nat → Except CalcErr (ℚ × Nat)
  | 0, _, _, _ => .error .invalidExpression
  | fuel + 1, cs, acc, i =>
    match cs[i]? with
    | some '+' =>
        match parseMulDiv fuel cs (i + 1) with
        | .error e => .error e
        | .ok (v, j) => parseAddSubLoop fuel cs (acc + v) j
    | some '-' =>
        match parseMulDiv fuel cs (i + 1) with
        | .error e => .error e
        | .ok (v, j) => parseAddSubLoop fuel cs (acc - v) j
    | _ => .ok (acc, i)
  termination_by structural fuel cs acc i => fuel

/-- `parseAddSub`: one mul/div chain, then the `+`/`-` loop. -/
def parseAddSub : Nat → List Char → Nat → Except CalcErr (ℚ × Nat)
  | 0, _, _ => .error .invalidExpression
  | fuel + 1, cs, i =>
    match parseMulDiv fuel cs i with
    | .error e => .error e
    | .ok (v, j) => parseAddSubLoop fuel cs v j
  termination_by structural fuel cs i => fuel

end

/-- `parseExpression`: run `parseAddSub` from position 0 and reject any
unconsumed trailing characters (`表达式末尾有多余字符`).  The fuel
`8 * (length + 1)` strictly dominates the recursion depth reachable on an
input of this length. -/
def parseExpression (cs : List Char) : Except CalcErr ℚ :=
  match parseAddSub (8 * (cs.length + 1)) cs 0 with
  | .error e => .error e
  | .ok (v, i) => if i < cs.length then .error .trailingChars else .ok v

/-- The bracket-balance scan of `safeEval`: a running count that throws
`括号不匹配` when it dips below zero or does not end at zero. -/
def bracketBalanced : List Char → Nat → Bool
  | [], n => n == 0
  | '(' :: rest, n => bracketBalanced rest (n + 1)
  | ')' :: rest, n =>
      match n with
      | 0 => false
      | k + 1 => bracketBalanced rest k
  | _ :: rest, n => bracketBalanced rest n

/-- `safeEval`: strip whitespace (`replace(/\s/g, '')`), check bracket
balance, then run `parseExpression` — no dynamic code evaluation. -/
def safeEval (s : String) : Except CalcErr ℚ :=
  let cleanExpr := s.data.filter (fun c => !c.isWhitespace)
  if bracketBalanced cleanExpr 0 then parseExpression cleanExpr
  else .error .bracketMismatch

/-- Result record returned by `calculatorHandler` (`expression`, `result`;
the constant `type: 'calculation'` field is omitted). -/
structure CalcResult where
  expression : String
  result : ℚ
  deriving DecidableEq, Repr

/-- `calculatorHandler`: strip the raw expression, reject an empty
remainder (the `^[\d+\-*\/().\s]+$` re-test always passes on a non-empty
stripped string), evaluate with `safeEval`.  The source's final
`isFinite` test cannot fail over `ℚ`: division by zero was already
rejected. -/
def calculatorHandler (expression : String) : Except CalcErr CalcResult :=
  let safeExpression := stripExpr expression
  if safeExpression.data.isEmpty then .error .invalidExpression
  else
    match safeEval safeExpression with
    | .error e => .error e
    | .ok r => .ok ⟨safeExpression, r⟩

-- Concrete evaluation helper: `evaluate("2+3*4") = 14`.
unseal Rat.add Rat.sub Rat.mul Rat.inv in
theorem calc_example_one : calculatorHandler "2+3*4" = .ok ⟨"2+3*4", 14⟩ := by
  decide

-- Concrete evaluation helper: `evaluate("(2+3)*4") = 20`.
unseal Rat.add Rat.sub Rat.mul Rat.inv in
theorem calc_example_two : calculatorHandler "(2+3)*4" = .ok ⟨"(2+3)*4", 20⟩ := by
  decide

/-- **C2.** For every input expression string, the calculator tool handler
first strips every character outside `[0-9+\-*/().\s]` and then evaluates
the cleaned string purely by the recursive-descent grammar (unary `+`/`-`,
parentheses, `*`/`/` binding tighter than `+`/`-`, left to right within a
level) with no dynamic code evaluation; `evaluate("2+3*4") = 14` and
`evaluate("(2+3)*4") = 20`. -/
theorem calculator_recursive_descent :
    (∀ e : String, (stripExpr e).data = e.data.filter allowedChar) ∧
    (∀ e : String, ∀ r : CalcResult, calculatorHandler e = .ok r →
        r.expression = stripExpr e ∧ safeEval (stripExpr e) = .ok r.result) ∧
    calculatorHandler "2+3*4" = .ok ⟨"2+3*4", 14⟩ ∧
    calculatorHandler "(2+3)*4" = .ok ⟨"(2+3)*4", 20⟩ := by
  refine ⟨fun e => rfl, ?_, calc_example_one, calc_example_two⟩
  intro e r h
  unfold calculatorHandler at h
  by_cases hempty : (stripExpr e).data.isEmpty
  · simp [hempty] at h
  · simp [hempty] at h
    cases hev : safeEval (stripExpr e) with
    | error err => rw [hev] at h; cases h
    | ok q => rw [hev] at h; cases h; exact ⟨rfl, rfl⟩

/-- Witness for C2: the implication instantiated on the concrete run
`calculatorHandler "2+3*4"`. -/
theorem calculator_recursive_descent_witness :
    calculatorHandler "2+3*4" = .ok ⟨"2+3*4", 14⟩ ∧
    (("2+3*4" : String) = stripExpr "2+3*4" ∧
      safeEval (stripExpr "2+3*4") = .ok 14) :=
  ⟨calculator_recursive_descent.2.2.1,
    calculator_recursive_descent.2.1 "2+3*4" ⟨"2+3*4", 14⟩
      calculator_recursive_descent.2.2.1⟩

/-- **C3 counterexample.** The evaluator has a failure mode beyond division
by zero, unbalanced parentheses and trailing characters: `"()"` fails with
the invalid-number error (`无效数字`), so the claim's "exactly these
failure modes" is false. -/
theorem calculator_error_modes_counterexample :
    safeEval "()" = .error .invalidNumber ∧
    CalcErr.invalidNumber ≠ CalcErr.divByZero ∧
    CalcErr.invalidNumber ≠ CalcErr.bracketMismatch ∧
    CalcErr.invalidNumber ≠ CalcErr.missingCloseParen ∧
    CalcErr.invalidNumber ≠ CalcErr.trailingChars := by
  exact ⟨rfl, by decide, by decide, by decide, by decide⟩

/-- **C3 (amended).** Division by zero, unbalanced parentheses and trailing
unconsumed characters are all signalled as errors (`evaluate("1/0")` is a
division-by-zero error, `evaluate("(1+2")` an unbalanced-parenthesis
error), but they are not the only failure modes: a missing or malformed
number is a further error case. -/
theorem calculator_error_modes :
    safeEval "1/0" = .error .divByZero ∧
    safeEval "(1+2" = .error .bracketMismatch ∧
    safeEval "1(2)" = .error .trailingChars ∧
    safeEval "()" = .error .invalidNumber := by
  exact ⟨rfl, rfl, rfl, rfl⟩


/-! ### Path-scoped file inspector: `validateAndNormalizePath`

`FunctionCallService.validateAndNormalizePath` rejects a candidate path on
a length bound, on any of ten dangerous regex patterns, and on
`path.isAbsolute`; the survivor is resolved against `process.cwd()` and
must still start with the working directory, with a relativized form not
starting in `..`.  The POSIX behaviour of Node's `path.resolve`,
`path.relative` and `path.isAbsolute` is modelled on `/`-separated
segments; the working directory is a parameter, given as its (normalized,
absolute) segment list.
-/

/-- Errors of `validateAndNormalizePath`, one per `throw` site
(`路径过长`, `路径包含危险字符或模式`, `不允许绝对路径`,
`路径超出允许范围`, `规范化后的路径无效`). -/
inductive PathErr where
  | tooLong
  | dangerousPattern
  | absoluteNotAllowed
  | outsideWorkspace
  | invalidNormalized
  deriving DecidableEq, Repr

/-- `true` on the `.error` branch of an `Except`. -/
def isErr {ε α : Type} : Except ε α → Bool
  | .error _ => true
  | .ok _ => false

/-- The regex `/\.\./`: two consecutive dots anywhere. -/
def hasDotDot : List Char → Bool
  | '.' :: '.' :: _ => true
  | _ :: rest => hasDotDot rest
  | [] => false

/-- ASCII hex digit, the character class `[0-9a-f]` under `/i`. -/
def isHexDigitCh (c : Char) : Bool :=
  c.isDigit || ('a' ≤ c && c ≤ 'f') || ('A' ≤ c && c ≤ 'F')

/-- The regex `/%[0-9a-f]\x7b2\x7d/i`: a percent sign followed by two hex
digits, anywhere. -/
def hasPercentHexPair : List Char → Bool
  | '%' :: a :: b :: rest =>
      (isHexDigitCh a && isHexDigitCh b) || hasPercentHexPair (a :: b :: rest)
  | _ :: rest => hasPercentHexPair rest
  | [] => false

/-- Case-insensitive match of a (lower-case) pattern against the front of
a character list. -/
def seqPrefixCI : List Char → List Char → Bool
  | [], _ => true
  | _ :: _, [] => false
  | p :: ps, c :: cs => (c.toLower == p) && seqPrefixCI ps cs

/-- Case-insensitive search for a pattern anywhere in a character list
(the regexes `/%2e/i`, `/%2f/i`, `/%5c/i`). -/
def hasSeqCI (pat : List Char) : List Char → Bool
  | [] => false
  | c :: rest => seqPrefixCI pat (c :: rest) || hasSeqCI pat rest

/-- The regex `/^\/[^\/]/`: a leading slash followed by a non-slash. -/
def startsAbsSlash : List Char → Bool
  | '/' :: c :: _ => c != '/'
  | _ => false

/-- The regex `/^[a-zA-Z]:/`: a Windows drive-letter path. -/
def startsDriveLetter : List Char → Bool
  | c :: ':' :: _ => c.isAlpha
  | _ => false

/-- The `dangerousPatterns` array of the source, in order: `..`, `~`, a
null byte, `%2e`/`%2f`/`%5c` (case-insensitive), a backslash, a leading
`/` with a following non-`/`, a drive letter, and any percent-encoded
octet. -/
def dangerousPath (cs : List Char) : Bool :=
  hasDotDot cs || cs.contains '~' || cs.contains (Char.ofNat 0) ||
    hasSeqCI ['%', '2', 'e'] cs || hasSeqCI ['%', '2', 'f'] cs ||
    hasSeqCI ['%', '5', 'c'] cs || cs.contains '\\' ||
    startsAbsSlash cs || startsDriveLetter cs || hasPercentHexPair cs

/-- Node `path.isAbsolute` on POSIX: a leading `/`. -/
def posixIsAbsolute (s : String) : Bool :=
  match s.data with
  | '/' :: _ => true
  | _ => false

/-- Split a character list at `/` into segment strings. -/
def splitSlashAux : List Char → List Char → List String
  | [], acc => [⟨acc.reverse⟩]
  | '/' :: rest, acc => (⟨acc.reverse⟩ : String) :: splitSlashAux rest []
  | c :: rest, acc => splitSlashAux rest (c :: acc)

/-- Split a path string at `/` into segments (empty segments kept, as in
Node's normalization input). -/
def splitSlash (s : String) : List String :=
  splitSlashAux s.data []

/-- Node path normalization on segments: drop empty and `.` segments, let
`..` pop the previous segment (staying at the root when there is none). -/
def normSegs (segs : List String) : List String :=
  segs.foldl
    (fun acc seg =>
      if seg = "" || seg = "." then acc
      else if seg = ".." then acc.dropLast
      else acc ++ [seg])
    []

/-- Node `path.resolve(filePath)` against the working directory `cwd`
(given as normalized absolute segments): an absolute argument restarts
from the root, otherwise the segments are appended and normalized. -/
def resolvePath (cwd : List String) (p : String) : List String :=
  if posixIsAbsolute p then normSegs (splitSlash p)
  else normSegs (cwd ++ splitSlash p)

/-- Render absolute segments as a `/`-separated absolute path string. -/
def joinAbs (segs : List String) : String :=
  match segs with
  | [] => "/"
  | _ => segs.foldl (fun acc s => acc ++ "/" ++ s) ""

/-- JavaScript `String.prototype.startsWith`. -/
def strStartsWith (s pat : String) : Bool :=
  pat.data.isPrefixOf s.data

/-- Length of the common leading run of two segment lists. -/
def commonLen : List String → List String → Nat
  | a :: as, b :: bs => if a = b then commonLen as bs + 1 else 0
  | _, _ => 0

/-- Join relative segments with `/` (no leading slash). -/
def joinRel : List String → String
  | [] => ""
  | s :: rest => rest.foldl (fun acc x => acc ++ "/" ++ x) s

/-- Node `path.relative(cwd, target)` on resolved segment lists: strip the
common run, then one `..` per remaining `cwd` segment followed by the
remaining target segments. -/
def relativeSegs (fromSegs toSegs : List String) : String :=
  let c := commonLen fromSegs toSegs
  joinRel (List.replicate (fromSegs.length - c) ".." ++ toSegs.drop c)

/-- `validateAndNormalizePath`: length bound, dangerous patterns,
`path.isAbsolute`, then resolve and check containment in the working
directory twice (string prefix and relativized form). -/
def validateAndNormalizePath (cwd : List String) (filePath : String) :
    Except PathErr String :=
  if filePath.length > 1000 then .error .tooLong
  else if dangerousPath filePath.data then .error .dangerousPattern
  else if posixIsAbsolute filePath then .error .absoluteNotAllowed
  else
    let resolvedSegs := resolvePath cwd filePath
    let normalizedPath := joinAbs resolvedSegs
    if !strStartsWith normalizedPath (joinAbs cwd) then .error .outsideWorkspace
    else if strStartsWith (relativeSegs cwd resolvedSegs) ".." then
      .error .invalidNormalized
    else .ok normalizedPath

/-- **C1.** Every candidate path containing a traversal token, a home
shorthand, a null byte, a percent-encoded octet, a backslash, an
absolute-path start, or a drive-letter start is rejected; every accepted
path resolves to an absolute path that starts with the working directory
and whose relativized form does not start with `..`; `"../secret"`,
`"/etc/passwd"`, `"a%2e%2e/b"` and `"C:\x"` are rejected while
`"subdir/file.txt"` is accepted and resolves inside the workspace. -/
theorem path_validator_safety :
    (∀ (cwd : List String) (p : String),
        hasDotDot p.data = true ∨ '~' ∈ p.data ∨ Char.ofNat 0 ∈ p.data ∨
          hasPercentHexPair p.data = true ∨ '\\' ∈ p.data ∨
          posixIsAbsolute p = true ∨ startsDriveLetter p.data = true →
        isErr (validateAndNormalizePath cwd p) = true) ∧
    (∀ (cwd : List String) (p n : String),
        validateAndNormalizePath cwd p = .ok n →
        strStartsWith n (joinAbs cwd) = true ∧
          strStartsWith (relativeSegs cwd (resolvePath cwd p)) ".." = false) ∧
    isErr (validateAndNormalizePath ["home", "user"] "../secret") = true ∧
    isErr (validateAndNormalizePath ["home", "user"] "/etc/passwd") = true ∧
    isErr (validateAndNormalizePath ["home", "user"] "a%2e%2e/b") = true ∧
    isErr (validateAndNormalizePath ["home", "user"] "C:\\x") = true ∧
    validateAndNormalizePath ["home", "user"] "subdir/file.txt" =
      .ok "/home/user/subdir/file.txt" := by
  refine ⟨?_, ?_, by decide, by decide, by decide, by decide, by decide⟩
  · intro cwd p h
    unfold validateAndNormalizePath
    by_cases hlen : p.length > 1000
    · simp [hlen, isErr]
    · by_cases hd : dangerousPath p.data
      · simp [hlen, hd, isErr]
      · have habs : posixIsAbsolute p = true := by
          rcases h with h | h | h | h | h | h | h
          · exact absurd (by simp [dangerousPath, h]) hd
          · exact absurd (by simp [dangerousPath, h]) hd
          · exact absurd (by simp [dangerousPath, h]) hd
          · exact absurd (by simp [dangerousPath, h]) hd
          · exact absurd (by simp [dangerousPath, h]) hd
          · exact h
          · exact absurd (by simp [dangerousPath, h]) hd
        simp [hlen, hd, habs, isErr]
  · intro cwd p n h
    simp only [validateAndNormalizePath] at h
    split_ifs at h with h1 h2 h3 h4 h5 <;>
      first
        | exact Except.noConfusion h
        | (injection h with hn; subst hn; refine ⟨?_, ?_⟩ <;> simp_all)

/-- Witness for C1: the rejection conjunct applied at `"../secret"` and the
acceptance postcondition applied at `"subdir/file.txt"`. -/
theorem path_validator_safety_witness :
    isErr (validateAndNormalizePath ["home", "user"] "../secret") = true ∧
    (strStartsWith "/home/user/subdir/file.txt" (joinAbs ["home", "user"]) = true ∧
      strStartsWith
        (relativeSegs ["home", "user"]
          (resolvePath ["home", "user"] "subdir/file.txt")) ".." = false) :=
  ⟨path_validator_safety.1 ["home", "user"] "../secret" (Or.inl (by decide)),
    path_validator_safety.2.1 ["home", "user"] "subdir/file.txt"
      "/home/user/subdir/file.txt" path_validator_safety.2.2.2.2.2.2⟩

/-! ### Model pool: `updateModelPool`, `calculateCapabilityScore`,
`selectOptimalModel`

`ModelDiscoveryService.updateModelPool` distributes each discovered model
into exactly one of four tiers through an if/else chain, then sorts the
three healthy tiers descending by capability score.
`selectOptimalModel` filters `primary ++ secondary` by the request
criteria, optionally narrows to preferred ids, sorts by the requested key
and returns the first candidate.  The provider handle, identity metadata
and timestamps are irrelevant to the claims and are omitted from the
record.
-/

/-- The fields of `ModelCapabilities` that tiering and selection read. -/
structure ModelCapabilities where
  id : String
  maxInputTokens : Nat
  supportsVision : Bool
  supportsTools : Bool
  supportsFunctionCalling : Bool
  supportsStreaming : Bool
  supportsMultimodal : Bool
  isHealthy : Bool
  successRate : Option ℚ
  responseTime : Option Nat
  deriving DecidableEq, Repr

/-- JavaScript `x || dflt` on an optional number: `undefined` and `0` are
falsy, any other number is itself. -/
def jsOrRat (x : Option ℚ) (dflt : ℚ) : ℚ :=
  match x with
  | none => dflt
  | some r => if r = 0 then dflt else r

/-- `calculateCapabilityScore`:
`maxInputTokens/1000 + 50·vision + 30·tools + 20·multimodal
+ 100·(successRate || 0.5)`. -/
def calculateCapabilityScore (m : ModelCapabilities) : ℚ :=
  (m.maxInputTokens : ℚ) / 1000 +
    (if m.supportsVision then 50 else 0) +
    (if m.supportsTools then 30 else 0) +
    (if m.supportsMultimodal then 20 else 0) +
    jsOrRat m.successRate (1 / 2) * 100

/-- Descending capability-score order: `a` may precede `b` when `b`'s
score is at most `a`'s (the comparator `(a, b) => score(b) - score(a)`). -/
def scoreDesc (a b : ModelCapabilities) : Prop :=
  calculateCapabilityScore b ≤ calculateCapabilityScore a

instance : DecidableRel scoreDesc := fun a b =>
  inferInstanceAs (Decidable (calculateCapabilityScore b ≤ calculateCapabilityScore a))

instance : IsTotal ModelCapabilities scoreDesc :=
  ⟨fun a b => le_total (calculateCapabilityScore b) (calculateCapabilityScore a)⟩

instance : IsTrans ModelCapabilities scoreDesc :=
  ⟨fun _ _ _ hab hbc => le_trans hbc hab⟩

/-- The four tiers of the pool (`lastUpdated` omitted). -/
structure ModelPool where
  primary : List ModelCapabilities
  secondary : List ModelCapabilities
  fallback : List ModelCapabilities
  unhealthy : List ModelCapabilities
  deriving DecidableEq, Repr

/-- The distribution loop of `updateModelPool`: each model goes to exactly
one tier — unhealthy first, else vision∧tools → primary, else
tools ∨ maxInputTokens > 64000 → secondary, else fallback — keeping the
input order inside each tier. -/
def classifyModels :
    List ModelCapabilities →
      List ModelCapabilities × List ModelCapabilities ×
        List ModelCapabilities × List ModelCapabilities
  | [] => ([], [], [], [])
  | m :: rest =>
    let c := classifyModels rest
    if !m.isHealthy then (c.1, c.2.1, c.2.2.1, m :: c.2.2.2)
    else if m.supportsVision && m.supportsTools then
      (m :: c.1, c.2.1, c.2.2.1, c.2.2.2)
    else if m.supportsTools || decide (m.maxInputTokens > 64000) then
      (c.1, m :: c.2.1, c.2.2.1, c.2.2.2)
    else (c.1, c.2.1, m :: c.2.2.1, c.2.2.2)

/-- `updateModelPool`: distribute, then sort the three healthy tiers
descending by capability score (a stable sort, as JavaScript's
`Array.prototype.sort`; the unhealthy tier is not sorted). -/
def updateModelPool (models : List ModelCapabilities) : ModelPool where
  primary := List.insertionSort scoreDesc (classifyModels models).1
  secondary := List.insertionSort scoreDesc (classifyModels models).2.1
  fallback := List.insertionSort scoreDesc (classifyModels models).2.2.1
  unhealthy := (classifyModels models).2.2.2

/-- The distribution loop written as four order-preserving filters. -/
theorem classifyModels_eq (models : List ModelCapabilities) :
    classifyModels models =
      (models.filter (fun m => m.isHealthy && (m.supportsVision && m.supportsTools)),
        models.filter (fun m =>
          m.isHealthy && !(m.supportsVision && m.supportsTools) &&
            (m.supportsTools || decide (m.maxInputTokens > 64000))),
        models.filter (fun m =>
          m.isHealthy && !(m.supportsVision && m.supportsTools) &&
            !(m.supportsTools || decide (m.maxInputTokens > 64000))),
        models.filter (fun m => !m.isHealthy)) := by
  induction models with
  | nil => rfl
  | cons m rest ih =>
    simp only [classifyModels, ih, List.filter_cons]
    by_cases h1 : m.isHealthy <;>
      by_cases h2 : m.supportsVision && m.supportsTools <;>
      by_cases h3 : m.supportsTools || decide (m.maxInputTokens > 64000) <;>
      simp [h1, h2, h3]

/-- The four tiers of the distribution loop are jointly a permutation of
the input. -/
theorem classifyModels_perm (models : List ModelCapabilities) :
    ((classifyModels models).1 ++ ((classifyModels models).2.1 ++
      ((classifyModels models).2.2.1 ++ (classifyModels models).2.2.2))).Perm
      models := by
  induction models with
  | nil => simp [classifyModels]
  | cons m rest ih =>
    simp only [classifyModels]
    split_ifs <;> dsimp only
    · exact (((List.perm_middle.append_left _).trans
        List.perm_middle).append_left _).trans
        (List.perm_middle.trans (ih.cons m))
    · exact ih.cons m
    · exact List.perm_middle.trans (ih.cons m)
    · exact ((List.perm_middle.append_left _).trans
        List.perm_middle).trans (ih.cons m)

/-- **C5.** After every discovery pass the four tiers partition the
discovered models — jointly a permutation of the input, with the ordered
placement rule (unhealthy; else vision∧tools → primary; else
tools ∨ context > 64000 → secondary; else fallback) — and each healthy
tier is sorted in descending capability-score order. -/
theorem pool_tiers_partition (models : List ModelCapabilities) :
    ((updateModelPool models).primary ++ ((updateModelPool models).secondary ++
      ((updateModelPool models).fallback ++
        (updateModelPool models).unhealthy))).Perm models ∧
    (∀ m ∈ (updateModelPool models).unhealthy, m.isHealthy = false) ∧
    (∀ m ∈ (updateModelPool models).primary,
        m.isHealthy = true ∧ m.supportsVision = true ∧ m.supportsTools = true) ∧
    (∀ m ∈ (updateModelPool models).secondary,
        m.isHealthy = true ∧ ¬(m.supportsVision = true ∧ m.supportsTools = true) ∧
          (m.supportsTools = true ∨ m.maxInputTokens > 64000)) ∧
    (∀ m ∈ (updateModelPool models).fallback,
        m.isHealthy = true ∧ ¬(m.supportsVision = true ∧ m.supportsTools = true) ∧
          ¬m.supportsTools = true ∧ m.maxInputTokens ≤ 64000) ∧
    List.Sorted scoreDesc (updateModelPool models).primary ∧
    List.Sorted scoreDesc (updateModelPool models).secondary ∧
    List.Sorted scoreDesc (updateModelPool models).fallback := by
  refine ⟨?_, ?_, ?_, ?_, ?_, ?_, ?_, ?_⟩
  · refine List.Perm.trans ?_ (classifyModels_perm models)
    exact (List.perm_insertionSort _ _).append
      (((List.perm_insertionSort _ _).append
        ((List.perm_insertionSort _ _).append (List.Perm.refl _))))
  · intro m hm
    have : m ∈ (classifyModels models).2.2.2 := hm
    rw [classifyModels_eq] at this
    simpa using (List.mem_filter.mp this).2
  · intro m hm
    have : m ∈ (classifyModels models).1 :=
      (List.mem_insertionSort scoreDesc).mp hm
    rw [classifyModels_eq] at this
    simpa using (List.mem_filter.mp this).2
  · intro m hm
    have : m ∈ (classifyModels models).2.1 :=
      (List.mem_insertionSort scoreDesc).mp hm
    rw [classifyModels_eq] at this
    have h2 := (List.mem_filter.mp this).2
    simp only [Bool.and_eq_true, Bool.or_eq_true, Bool.not_eq_true',
      Bool.and_eq_false_iff, decide_eq_true_eq] at h2
    refine ⟨h2.1.1, ?_, ?_⟩
    · rcases h2.1.2 with h | h <;> simp [h]
    · rcases h2.2 with h | h
      · exact Or.inl h
      · exact Or.inr h
  · intro m hm
    have : m ∈ (classifyModels models).2.2.1 :=
      (List.mem_insertionSort scoreDesc).mp hm
    rw [classifyModels_eq] at this
    have h2 := (List.mem_filter.mp this).2
    simp only [Bool.and_eq_true, Bool.or_eq_true, Bool.not_eq_true',
      Bool.and_eq_false_iff, Bool.or_eq_false_iff, decide_eq_false_iff_not,
      not_lt] at h2
    refine ⟨h2.1.1, ?_, ?_, ?_⟩
    · rcases h2.1.2 with h | h <;> simp [h]
    · simp [h2.2.1]
    · exact h2.2.2
  · exact List.sorted_insertionSort scoreDesc _
  · exact List.sorted_insertionSort scoreDesc _
  · exact List.sorted_insertionSort scoreDesc _

/-- Witness for C5: an unhealthy model lands in the unhealthy tier of the
pool built from it, and the tier-rule conjunct applies to it. -/
theorem pool_tiers_partition_witness :
    (⟨"m1", 1000, false, false, false, true, false, false, none, none⟩ :
        ModelCapabilities).isHealthy = false :=
  (pool_tiers_partition
      [⟨"m1", 1000, false, false, false, true, false, false, none, none⟩]).2.1
    ⟨"m1", 1000, false, false, false, true, false, false, none, none⟩
    (by decide)

/-- Capability-flag keys usable in `criteria.requiredCapabilities`
(`model[capability]` lookups). -/
inductive CapabilityKey where
  | vision
  | tools
  | functionCalling
  | streaming
  | multimodal
  deriving DecidableEq, Repr

/-- The flag of a model addressed by a capability key. -/
def capFlag (m : ModelCapabilities) : CapabilityKey → Bool
  | .vision => m.supportsVision
  | .tools => m.supportsTools
  | .functionCalling => m.supportsFunctionCalling
  | .streaming => m.supportsStreaming
  | .multimodal => m.supportsMultimodal

/-- The `sortBy` key of the selection criteria. -/
inductive SortKey where
  | performance
  | tokens
  | health
  | capabilities
  deriving DecidableEq, Repr

/-- `DynamicModelCriteria`: the request-scoped filter/ranking record.
Optional fields are `Option`s; the boolean requirements collapse
JavaScript `undefined` to `false` (both are falsy in the source's
guards). -/
structure DynamicModelCriteria where
  preferredModels : Option (List String)
  requiredCapabilities : Option (List CapabilityKey)
  minContextTokens : Option Nat
  requiresVision : Bool
  requiresTools : Bool
  excludeModels : Option (List String)
  sortBy : SortKey
  deriving DecidableEq, Repr

/-- The filter predicate of `selectOptimalModel`: healthy, all required
capability flags, the minimum-context guard (skipped when
`minContextTokens` is absent or `0`, both falsy), the vision and tools
requirements, and the exclusion list. -/
def meetsCriteria (c : DynamicModelCriteria) (m : ModelCapabilities) : Bool :=
  m.isHealthy &&
    (match c.requiredCapabilities with
      | none => true
      | some caps => caps.all (capFlag m)) &&
    (match c.minContextTokens with
      | none => true
      | some k => !(k != 0 && decide (m.maxInputTokens < k))) &&
    !(c.requiresVision && !m.supportsVision) &&
    !(c.requiresTools && !m.supportsTools) &&
    (match c.excludeModels with
      | none => true
      | some ex => !ex.contains m.id)

/-- The sort comparator of `selectOptimalModel` as a "may precede"
relation: ascending response time, descending max input tokens,
descending success rate (`successRate || 0`), or descending capability
score. -/
def selectionRel (c : DynamicModelCriteria) (a b : ModelCapabilities) : Prop :=
  match c.sortBy with
  | .performance => a.responseTime.getD 0 ≤ b.responseTime.getD 0
  | .tokens => b.maxInputTokens ≤ a.maxInputTokens
  | .health => jsOrRat b.successRate 0 ≤ jsOrRat a.successRate 0
  | .capabilities => scoreDesc a b

instance (c : DynamicModelCriteria) : DecidableRel (selectionRel c) := fun a b => by
  unfold selectionRel
  cases c.sortBy <;> dsimp only <;> infer_instance

/-- `selectOptimalModel`: start from `primary ++ secondary`, filter by the
criteria, softly narrow to preferred ids when some candidate matches,
sort by the requested key, and return the first candidate (or `none`). -/
def selectOptimalModel (pool : ModelPool) (c : DynamicModelCriteria) :
    Option ModelCapabilities :=
  let availableModels := pool.primary ++ pool.secondary
  if availableModels.isEmpty then none
  else
    let candidateModels := availableModels.filter (meetsCriteria c)
    let narrowed :=
      match c.preferredModels with
      | some pref =>
          if pref.length > 0 then
            let preferredCandidates :=
              candidateModels.filter (fun m => pref.contains m.id)
            if preferredCandidates.length > 0 then preferredCandidates
            else candidateModels
          else candidateModels
      | none => candidateModels
    if narrowed.isEmpty then none
    else (List.insertionSort (selectionRel c) narrowed).head?

/-- A model returned by the selector passed the criteria filter and came
from `primary ++ secondary`. -/
theorem selectOptimalModel_mem_and_meets (pool : ModelPool)
    (c : DynamicModelCriteria) (m : ModelCapabilities)
    (h : selectOptimalModel pool c = some m) :
    m ∈ pool.primary ++ pool.secondary ∧ meetsCriteria c m = true := by
  have hcand : m ∈ (pool.primary ++ pool.secondary).filter (meetsCriteria c) := by
    simp only [selectOptimalModel] at h
    rcases hpref : c.preferredModels with _ | pref <;> simp only [hpref] at h <;>
      split_ifs at h <;>
      first
        | exact Option.noConfusion h
        | exact List.mem_of_mem_filter
            ((List.mem_insertionSort _).mp (List.mem_of_mem_head? h))
        | exact (List.mem_insertionSort _).mp (List.mem_of_mem_head? h)
  exact List.mem_filter.mp hcand

/-- **C6.** `selectOptimalModel` returns either `none` or a healthy model
drawn from the primary/secondary tiers that has every required capability
flag, at least `minContextTokens` input tokens, vision and tools when
required, and is not excluded; a model of the fallback or unhealthy tier
of a discovery-built pool is never returned. -/
theorem selector_tier_and_criteria :
    (∀ (pool : ModelPool) (c : DynamicModelCriteria) (m : ModelCapabilities),
        selectOptimalModel pool c = some m →
        m ∈ pool.primary ++ pool.secondary ∧ m.isHealthy = true ∧
          (∀ caps, c.requiredCapabilities = some caps →
            ∀ k ∈ caps, capFlag m k = true) ∧
          (∀ j, c.minContextTokens = some j → j ≤ m.maxInputTokens) ∧
          (c.requiresVision = true → m.supportsVision = true) ∧
          (c.requiresTools = true → m.supportsTools = true) ∧
          (∀ ex, c.excludeModels = some ex → m.id ∉ ex)) ∧
    (∀ (models : List ModelCapabilities) (c : DynamicModelCriteria)
        (m : ModelCapabilities),
        selectOptimalModel (updateModelPool models) c = some m →
        m ∉ (updateModelPool models).fallback ∧
          m ∉ (updateModelPool models).unhealthy) := by
  constructor
  · intro pool c m h
    obtain ⟨hmem, hmeets⟩ := selectOptimalModel_mem_and_meets pool c m h
    simp only [meetsCriteria, Bool.and_eq_true] at hmeets
    obtain ⟨⟨⟨⟨⟨hhealthy, hcaps⟩, hmin⟩, hvis⟩, htools⟩, hexcl⟩ := hmeets
    refine ⟨hmem, hhealthy, ?_, ?_, ?_, ?_, ?_⟩
    · intro caps hc k hk
      rw [hc] at hcaps
      exact List.all_eq_true.mp hcaps k hk
    · intro j hj
      rw [hj] at hmin
      simp only [Bool.not_eq_true', Bool.and_eq_false_iff, bne_eq_false_iff_eq,
        decide_eq_false_iff_not, not_lt] at hmin
      rcases hmin with h0 | hle
      · simp [h0]
      · exact hle
    · intro hv
      rw [hv] at hvis
      simpa using hvis
    · intro ht
      rw [ht] at htools
      simpa using htools
    · intro ex hex
      rw [hex] at hexcl
      simpa using hexcl
  · intro models c m h
    obtain ⟨hmem, hmeets⟩ := selectOptimalModel_mem_and_meets _ c m h
    rw [List.mem_append] at hmem
    have htier :
        (m.isHealthy && (m.supportsVision && m.supportsTools)) = true ∨
        (m.isHealthy && !(m.supportsVision && m.supportsTools) &&
          (m.supportsTools || decide (m.maxInputTokens > 64000))) = true := by
      rcases hmem with h1 | h2
      · left
        have := (List.mem_insertionSort scoreDesc).mp h1
        rw [classifyModels_eq] at this
        exact (List.mem_filter.mp this).2
      · right
        have := (List.mem_insertionSort scoreDesc).mp h2
        rw [classifyModels_eq] at this
        exact (List.mem_filter.mp this).2
    constructor
    · intro hf
      have hf2 : m ∈ (classifyModels models).2.2.1 :=
        (List.mem_insertionSort scoreDesc).mp hf
      rw [classifyModels_eq] at hf2
      have hp3 := (List.mem_filter.mp hf2).2
      rcases htier with h | h <;> simp_all <;> omega
    · intro hu
      have hu2 : m ∈ (classifyModels models).2.2.2 := hu
      rw [classifyModels_eq] at hu2
      have hp4 := (List.mem_filter.mp hu2).2
      rcases htier with h | h <;> simp_all

/-- A healthy vision-and-tools model used to instantiate the selector. -/
def sampleModel : ModelCapabilities :=
  ⟨"gpt-4o", 100000, true, true, true, true, true, true, none, none⟩

/-- Unconstrained selection criteria (`auto-select`, capability sort). -/
def sampleCriteria : DynamicModelCriteria :=
  ⟨none, none, none, false, false, none, .capabilities⟩

/-- Witness for C6: on the pool built from `[sampleModel]` the selector
returns `sampleModel`, which lies in the healthy tiers and outside the
fallback tier. -/
theorem selector_tier_and_criteria_witness :
    sampleModel ∈ (updateModelPool [sampleModel]).primary ++
        (updateModelPool [sampleModel]).secondary ∧
    sampleModel ∉ (updateModelPool [sampleModel]).fallback :=
  ⟨(selector_tier_and_criteria.1 (updateModelPool [sampleModel]) sampleCriteria
      sampleModel (by decide)).1,
    (selector_tier_and_criteria.2 [sampleModel] sampleCriteria sampleModel
      (by decide)).1⟩

/-! ### Converter: role mapping and the streaming translator

`Converter.mapRoleToVSCode` and `Converter.formatRolePrefix` translate
OpenAI roles to the provider's two-role scheme; `createStreamChunk` and
`extractStreamContent` produce the SSE emission sequence.  The request
id, requested model name, creation timestamp and model fingerprint data
are carried in a context record; the `done` constructor stands for the
literal `data: [DONE]` line of `createSSEEvent`.
-/

/-- The provider's two message roles
(`vscode.LanguageModelChatMessageRole`). -/
inductive VSCodeRole where
  | user
  | assistant
  deriving DecidableEq, Repr

/-- `mapRoleToVSCode`: `system` and `user` (and anything unknown) map to
`User`; only `assistant` maps to `Assistant`. -/
def mapRoleToVSCode (role : String) : VSCodeRole :=
  if role = "system" then .user
  else if role = "user" then .user
  else if role = "assistant" then .assistant
  else .user

/-- `formatRolePrefix`: the textual role marker prepended to message
content (`System: `, `Assistant: `, nothing for `user` and unknown). -/
def rolePrefixText (role : String) : String :=
  if role = "system" then "System: "
  else if role = "assistant" then "Assistant: "
  else ""

/-- A provider chat message built from a plain-text OpenAI message by
`convertSingleMessage`: the mapped role and the prefixed content. -/
structure VSCodeMessage where
  role : VSCodeRole
  content : String
  deriving DecidableEq, Repr

/-- `convertSingleMessage` on string content. -/
def convertTextMessage (role content : String) : VSCodeMessage :=
  ⟨mapRoleToVSCode role, rolePrefixText role ++ content⟩

/-- **C10.** Every message whose role is not `assistant` — in particular a
`system` message — becomes a provider message tagged `User` (system
content is prefixed `System: `, assistant content `Assistant: `); only
role `assistant` yields the `Assistant` tag, so the provider never
receives a distinct system-role message. -/
theorem role_mapping_no_system (role content : String) :
    (role ≠ "assistant" → mapRoleToVSCode role = .user) ∧
    (mapRoleToVSCode role = .assistant ↔ role = "assistant") ∧
    convertTextMessage "system" content = ⟨.user, "System: " ++ content⟩ ∧
    convertTextMessage "assistant" content =
      ⟨.assistant, "Assistant: " ++ content⟩ ∧
    convertTextMessage "user" content = ⟨.user, content⟩ := by
  refine ⟨?_, ⟨?_, ?_⟩, rfl, rfl, by simp [convertTextMessage, mapRoleToVSCode, rolePrefixText]⟩
  · intro hne
    unfold mapRoleToVSCode
    split_ifs <;> rfl
  · intro hmap
    unfold mapRoleToVSCode at hmap
    split_ifs at hmap <;> simp_all
  · intro hrole
    simp [mapRoleToVSCode, hrole]

/-- Witness for C10: the mapping applied at role `"system"`. -/
theorem role_mapping_no_system_witness :
    mapRoleToVSCode "system" = .user ∧
    ¬mapRoleToVSCode "system" = .assistant :=
  ⟨(role_mapping_no_system "system" "").1 (by decide),
    fun hc => by
      have := ((role_mapping_no_system "system" "").2.1).mp hc
      exact absurd this (by decide)⟩

/-- Per-request data carried into every stream chunk: request id,
originally requested model name, `Date.now()` timestamp, and the vendor
and family of the selected model (for the fingerprint). -/
structure StreamCtx where
  requestId : String
  model : String
  created : Nat
  vendor : String
  family : String
  deriving DecidableEq, Repr

/-- The incremental `delta` of a streaming chunk: an optional role marker
and optional content (absent fields stay absent in the JSON). -/
structure StreamDelta where
  role : Option String
  content : Option String
  deriving DecidableEq, Repr

/-- One OpenAI streaming chunk as built by `createStreamChunk` (the single
choice is inlined: its index is always 0). -/
structure StreamChunk where
  id : String
  created : Nat
  model : String
  delta : StreamDelta
  finishReason : Option String
  fingerprint : String
  deriving DecidableEq, Repr

/-- `createStreamChunk`: the role marker only on a first chunk, the
content field only when the fragment is non-empty (JavaScript truthiness
of `content`), and `finish_reason: "stop"` only on a last chunk. -/
def createStreamChunk (content : String) (ctx : StreamCtx)
    (isFirst isLast : Bool) : StreamChunk where
  id := "chatcmpl-" ++ ctx.requestId
  created := ctx.created
  model := ctx.model
  delta :=
    { role := if isFirst then some "assistant" else none
      content := if content ≠ "" then some content else none }
  finishReason := if isLast then some "stop" else none
  fingerprint := "vs-code-" ++ ctx.vendor ++ "-" ++ ctx.family

/-- One SSE emission of the translator: a `data:` line carrying a JSON
chunk, the literal `data: [DONE]` sentinel, or the in-stream error
event. -/
inductive SSEEvent where
  | data (chunk : StreamChunk)
  | done
  | errorEvent
  deriving DecidableEq, Repr

/-- The `for await` loop of `extractStreamContent`: one chunk per truthy
(non-empty) fragment, `isFirst` cleared only after a chunk is actually
emitted. -/
def emitFragmentChunks (ctx : StreamCtx) :
    List String → Bool → List SSEEvent
  | [], _ => []
  | c :: rest, isFirst =>
    if c ≠ "" then
      .data (createStreamChunk c ctx isFirst false) ::
        emitFragmentChunks ctx rest false
    else emitFragmentChunks ctx rest isFirst

/-- `extractStreamContent` on a provider stream that delivers `fragments`
and ends normally: the fragment chunks, the synthetic final stop chunk,
then the done sentinel. -/
def extractStreamContent (ctx : StreamCtx) (fragments : List String) :
    List SSEEvent :=
  emitFragmentChunks ctx fragments true ++
    [.data (createStreamChunk "" ctx false true), .done]

/-- The spec-side emission sequence: one chunk per fragment, the first
carrying the role marker, then the stop chunk and the sentinel. -/
def streamSpecEmissions (ctx : StreamCtx) (fragments : List String) :
    List SSEEvent :=
  (match fragments with
    | [] => []
    | c :: rest =>
        .data (createStreamChunk c ctx true false) ::
          rest.map (fun s => .data (createStreamChunk s ctx false false))) ++
    [.data (createStreamChunk "" ctx false true), .done]

/-- **C7 counterexample.** On the fragment sequence `[""]` the translator
emits only the final stop chunk and the sentinel — two emissions, not the
three (one data chunk per fragment plus stop plus done) the claim
demands, because falsy (empty) fragments are skipped by `if (chunk)`. -/
theorem streaming_translator_counterexample :
    (extractStreamContent ⟨"req", "gpt-4o", 0, "copilot", "gpt"⟩ [""]).length = 2 ∧
    (extractStreamContent ⟨"req", "gpt-4o", 0, "copilot", "gpt"⟩ [""]).length ≠
      [""].length + 2 := by
  decide

/-- Helper: skipping empty fragments does not disturb the first-chunk
marking, so the loop equals the spec sequence on the non-empty
fragments. -/
theorem emitFragmentChunks_eq_spec (ctx : StreamCtx) :
    ∀ (fragments : List String),
      emitFragmentChunks ctx fragments true =
        (match fragments.filter (fun s => s ≠ "") with
          | [] => []
          | c :: rest =>
              .data (createStreamChunk c ctx true false) ::
                rest.map (fun s => .data (createStreamChunk s ctx false false))) := by
  have tail : ∀ (l : List String),
      emitFragmentChunks ctx l false =
        (l.filter (fun s => s ≠ "")).map
          (fun s => .data (createStreamChunk s ctx false false)) := by
    intro l
    induction l with
    | nil => rfl
    | cons c rest ih =>
      by_cases hc : c = "" <;> simp [emitFragmentChunks, List.filter_cons, hc, ih]
  intro fragments
  induction fragments with
  | nil => rfl
  | cons c rest ih =>
    by_cases hc : c = ""
    · simpa [emitFragmentChunks, List.filter_cons, hc] using ih
    · simp [emitFragmentChunks, List.filter_cons, hc, tail rest]

/-- **C7 (amended).** The translator emits, in order: one data chunk per
*non-empty* fragment in provider order with the role marker on the first
such chunk, then the synthetic empty stop chunk (also when no fragment
was emitted), then the `data: [DONE]` sentinel; on `["Hel", "lo"]` that
is exactly four emissions. -/
theorem streaming_translator_emissions (ctx : StreamCtx)
    (fragments : List String) :
    extractStreamContent ctx fragments =
      streamSpecEmissions ctx (fragments.filter (fun s => s ≠ "")) ∧
    extractStreamContent ctx ["Hel", "lo"] =
      [.data (createStreamChunk "Hel" ctx true false),
        .data (createStreamChunk "lo" ctx false false),
        .data (createStreamChunk "" ctx false true), .done] ∧
    (extractStreamContent ctx ["Hel", "lo"]).length = 4 := by
  refine ⟨?_, rfl, rfl⟩
  unfold extractStreamContent streamSpecEmissions
  rw [emitFragmentChunks_eq_spec]

/-! ### Tool execution: `executeToolCall`

`FunctionCallService.executeToolCall` wraps every step in one `try`:
unknown id, disabled tool, unparseable JSON arguments, missing required
parameters, a handler exception and the 30-second timeout all land in the
`catch`, which bumps the error counter of the entry (when one exists) and
returns `{success:false, error}`; the success path bumps the usage
counter and returns `{success:true, result}`.  JSON parsing is abstracted
to the optional list of argument keys (`none` = parse failure), handler
results and the timeout race to a `HandlerOutcome`.
-/

/-- A `ToolRegistryEntry`: enabled flag, both counters, and the
`required` list of the tool's parameter schema (`lastUsed` omitted). -/
structure ToolEntry where
  isEnabled : Bool
  usageCount : Nat
  errorCount : Nat
  requiredParams : List String
  deriving DecidableEq, Repr

/-- `toolRegistry.get(name)` on an association-list registry. -/
def lookupTool (reg : List (String × ToolEntry)) (name : String) :
    Option ToolEntry :=
  (reg.find? (fun p => p.1 == name)).map (fun p => p.2)

/-- In-place mutation of the named entry. -/
def updateTool (reg : List (String × ToolEntry)) (name : String)
    (f : ToolEntry → ToolEntry) : List (String × ToolEntry) :=
  reg.map (fun p => if p.1 == name then (p.1, f p.2) else p)

/-- `registryEntry.errorCount++` of the catch block. -/
def bumpError (reg : List (String × ToolEntry)) (name : String) :
    List (String × ToolEntry) :=
  updateTool reg name (fun e => { e with errorCount := e.errorCount + 1 })

/-- `registryEntry.usageCount++` of the success path. -/
def bumpUsage (reg : List (String × ToolEntry)) (name : String) :
    List (String × ToolEntry) :=
  updateTool reg name (fun e => { e with usageCount := e.usageCount + 1 })

/-- Result of `Promise.race([handler(...), timeout])`: the handler settled
with a value, the handler rejected, or the 30-second timer won. -/
inductive HandlerOutcome where
  | ok (result : String)
  | raised (msg : String)
  | timeout
  deriving DecidableEq, Repr

/-- The `{success, result | error}` shape returned to the caller. -/
inductive ExecResult where
  | success (result : String)
  | failure (error : String)
  deriving DecidableEq, Repr

/-- `executeToolCall`: each failure mode returns the failure shape after
bumping the error counter (no bump when the tool is unregistered, since
the catch block's second lookup also misses); success bumps the usage
counter.  The source's negated guards (`if (!registryEntry.isEnabled)
throw`, `if (!validationResult.isValid) throw`) appear here with the
branches flipped.  Totality of this function is the embedded form of
"never throws to its caller". -/
def executeToolCall (reg : List (String × ToolEntry)) (name : String)
    (args : Option (List String)) (outcome : HandlerOutcome) :
    ExecResult × List (String × ToolEntry) :=
  match lookupTool reg name with
  | none => (.failure ("Tool " ++ name ++ " not found"), reg)
  | some entry =>
    if entry.isEnabled then
      match args with
      | none => (.failure "Invalid JSON arguments", bumpError reg name)
      | some keys =>
        if entry.requiredParams.all (fun r => keys.contains r) then
          match outcome with
          | .ok r => (.success r, bumpUsage reg name)
          | .raised msg => (.failure msg, bumpError reg name)
          | .timeout => (.failure "Tool execution timeout", bumpError reg name)
        else
          (.failure "Parameter validation failed: missing required parameter",
            bumpError reg name)
    else (.failure ("Tool " ++ name ++ " is disabled"), bumpError reg name)

/-- Updating a named entry is visible through lookup as applying the
update to the found entry. -/
theorem lookupTool_updateTool (reg : List (String × ToolEntry))
    (name : String) (f : ToolEntry → ToolEntry) :
    lookupTool (updateTool reg name f) name =
      (lookupTool reg name).map f := by
  induction reg with
  | nil => rfl
  | cons p rest ih =>
    by_cases hb : p.1 == name <;>
      simp_all [lookupTool, updateTool, List.find?_cons, hb]

/-- **C9.** `executeToolCall` always returns the `{success, result}` or
`{success:false, error}` shape (it is total); for a registered tool the
result is a success exactly when the tool is enabled, the arguments
parse, the required parameters are present and the handler wins the race
with a value; on success the tool's usage counter increments by one with
the error counter unchanged, and on every failure the error counter
increments by one with the usage counter unchanged. -/
theorem tool_execution_result_and_counters :
    (∀ (reg : List (String × ToolEntry)) (name : String)
        (args : Option (List String)) (outcome : HandlerOutcome),
        lookupTool reg name = none →
        executeToolCall reg name args outcome =
          (.failure ("Tool " ++ name ++ " not found"), reg)) ∧
    (∀ (reg : List (String × ToolEntry)) (name : String)
        (args : Option (List String)) (outcome : HandlerOutcome)
        (entry : ToolEntry), lookupTool reg name = some entry →
        ((∃ r, (executeToolCall reg name args outcome).1 = .success r) ↔
          (entry.isEnabled = true ∧
            ∃ keys, args = some keys ∧
              entry.requiredParams.all (fun r => keys.contains r) = true ∧
              ∃ v, outcome = .ok v)) ∧
        (∀ r, (executeToolCall reg name args outcome).1 = .success r →
          lookupTool (executeToolCall reg name args outcome).2 name =
            some { entry with usageCount := entry.usageCount + 1 }) ∧
        (∀ msg, (executeToolCall reg name args outcome).1 = .failure msg →
          lookupTool (executeToolCall reg name args outcome).2 name =
            some { entry with errorCount := entry.errorCount + 1 })) := by
  constructor
  · intro reg name args outcome hnone
    simp [executeToolCall, hnone]
  · intro reg name args outcome entry hfound
    have hb : lookupTool (bumpError reg name) name =
        some { entry with errorCount := entry.errorCount + 1 } := by
      rw [bumpError, lookupTool_updateTool, hfound]; rfl
    have hu : lookupTool (bumpUsage reg name) name =
        some { entry with usageCount := entry.usageCount + 1 } := by
      rw [bumpUsage, lookupTool_updateTool, hfound]; rfl
    simp only [executeToolCall, hfound]
    by_cases hen : entry.isEnabled
    · rw [if_pos hen]
      rcases args with _ | keys
      · simp [hb]
      · dsimp only
        by_cases hpar : entry.requiredParams.all (fun r => keys.contains r)
        · have hpar2 : ∀ x ∈ entry.requiredParams, x ∈ keys := by simpa using hpar
          rw [if_pos hpar]
          rcases outcome with r | msg | _ <;> simp [hen, hpar2, hb, hu] <;>
            exact hpar2
        · have hpar2 : ¬∀ x ∈ entry.requiredParams, x ∈ keys := by simpa using hpar
          rw [if_neg hpar]
          simp [hpar2, hb]
    · rw [if_neg hen]
      simp [hen, hb]

/-- Witness for C9: a registered, enabled calculator entry whose handler
succeeds has its usage counter moved from 0 to 1. -/
theorem tool_execution_result_and_counters_witness :
    lookupTool
        (executeToolCall [("calculator", ⟨true, 0, 0, ["expression"]⟩)]
          "calculator" (some ["expression"]) (.ok "4")).2 "calculator" =
      some ⟨true, 1, 0, ["expression"]⟩ :=
  ((tool_execution_result_and_counters.2
      [("calculator", ⟨true, 0, 0, ["expression"]⟩)] "calculator"
      (some ["expression"]) (.ok "4") ⟨true, 0, 0, ["expression"]⟩
      (by decide)).2.1) "4" (by decide)

/-! ### Request pipeline: concurrency admission and the token-limit check

`CopilotServer.handleRequest` inserts the incoming request into
`activeRequests` *before* calling `checkEnhancedRateLimit`, which
compares the map's size against `config.maxConcurrentRequests`; failing
the check sends a 429 and returns without routing, so validation (inside
`handleChatCompletions`, reached only through `routeEnhancedRequest`) is
never entered.  `RequestHandler.handleChatCompletions`, after model
selection and the access check, re-checks the token estimate against the
selected model's `maxInputTokens` and rejects with a 400 whose message
interpolates both numbers before any provider call.
-/

/-- What becomes of an incoming request at admission: an immediate error
response of the given HTTP status (no routing, hence no validation), or
routing to the endpoint handlers. -/
inductive AdmissionOutcome where
  | rejected (status : Nat)
  | routed
  deriving DecidableEq, Repr

/-- `checkEnhancedRateLimit`: `activeRequests.size <
config.maxConcurrentRequests`. -/
def checkEnhancedRateLimit (activeSize cap : Nat) : Bool :=
  activeSize < cap

/-- The admission step of `handleRequest` with `activeBefore` requests
already tracked: the new request is inserted first, so the size checked
is `activeBefore + 1`; on failure a 429 is sent immediately. -/
def handleRequestAdmission (activeBefore cap : Nat) : AdmissionOutcome :=
  if checkEnhancedRateLimit (activeBefore + 1) cap then .routed
  else .rejected 429

/-- **C4.** With the cap at `N` and `N` requests already being processed,
the `(N+1)`-th simultaneous request is rejected with a 429 before
routing (hence before validation), and any routed request keeps the
number of tracked requests strictly below the cap — nothing over the cap
is queued or processed. -/
theorem concurrency_cap_rejects :
    (∀ cap active : Nat, cap ≤ active →
        handleRequestAdmission active cap = .rejected 429) ∧
    (∀ cap active : Nat, handleRequestAdmission active cap = .routed →
        active + 1 < cap) := by
  constructor
  · intro cap active hle
    have : ¬(active + 1 < cap) := by omega
    simp [handleRequestAdmission, checkEnhancedRateLimit, this]
  · intro cap active h
    by_cases hlt : active + 1 < cap
    · exact hlt
    · simp [handleRequestAdmission, checkEnhancedRateLimit, hlt] at h

/-- Witness for C4: with cap 3 and 3 requests in flight the fourth is
rejected with 429. -/
theorem concurrency_cap_rejects_witness :
    handleRequestAdmission 3 3 = .rejected 429 :=
  concurrency_cap_rejects.1 3 3 (by decide)

/-- Error codes of the pipeline responses involved here
(`ERROR_CODES.API_ERROR`, `ERROR_CODES.INVALID_REQUEST`,
`ERROR_CODES.AUTHENTICATION_ERROR`). -/
inductive ErrorCode where
  | apiError
  | invalidRequest
  | authenticationError
  deriving DecidableEq, Repr

/-- Outcome of the pre-dispatch stages of `handleChatCompletions`:
an error response (status, code, message body) sent without contacting
the provider, or dispatch of the request to the provider. -/
inductive PipelineOutcome where
  | errorResponse (status : Nat) (code : ErrorCode) (message : String)
  | dispatched
  deriving DecidableEq, Repr

/-- The interpolated message
`Request exceeds model context limit (est > max tokens)`. -/
def contextLimitMessage (est maxTok : Nat) : String :=
  "Request exceeds model context limit (" ++ toString est ++ " > " ++
    toString maxTok ++ " tokens)"

/-- The stages of `handleChatCompletions` between model selection and
dispatch: no model → 503, no Copilot access → 401, estimate over the
selected model's `maxInputTokens` → 400 with both numbers; otherwise the
provider is invoked. -/
def handleChatCompletionsStage (selected : Option ModelCapabilities)
    (hasAccess : Bool) (est : Nat) : PipelineOutcome :=
  match selected with
  | none =>
      .errorResponse 503 .apiError
        "No suitable model available for request requirements"
  | some m =>
      if !hasAccess then
        .errorResponse 401 .authenticationError "GitHub Copilot access required"
      else if est > m.maxInputTokens then
        .errorResponse 400 .invalidRequest (contextLimitMessage est m.maxInputTokens)
      else .dispatched

/-- **C8.** A request whose token estimate exceeds the selected model's
`maxInputTokens` is never dispatched to the provider, and (when the
access check passed) is rejected with a 400 invalid-request error whose
message contains both the estimate and the model's limit. -/
theorem token_limit_recheck (m : ModelCapabilities) (hasAccess : Bool)
    (est : Nat) (hover : est > m.maxInputTokens) :
    handleChatCompletionsStage (some m) hasAccess est ≠ .dispatched ∧
    (hasAccess = true →
      handleChatCompletionsStage (some m) hasAccess est =
        .errorResponse 400 .invalidRequest
          (contextLimitMessage est m.maxInputTokens)) ∧
    (toString est).data.IsInfix (contextLimitMessage est m.maxInputTokens).data ∧
    (toString m.maxInputTokens).data.IsInfix
      (contextLimitMessage est m.maxInputTokens).data := by
  refine ⟨?_, ?_, ?_, ?_⟩
  · cases hasAccess <;> simp [handleChatCompletionsStage, hover]
  · intro ha
    simp [handleChatCompletionsStage, ha, hover]
  · exact ⟨"Request exceeds model context limit (".data,
      (" > " ++ toString m.maxInputTokens ++ " tokens)").data,
      by simp [contextLimitMessage, String.data_append]⟩
  · exact ⟨("Request exceeds model context limit (" ++ toString est ++ " > ").data,
      " tokens)".data,
      by simp [contextLimitMessage, String.data_append]⟩

/-- Witness for C8: a model with a 10-token limit rejects an 11-token
estimate with the 400 invalid-request response carrying both numbers. -/
theorem token_limit_recheck_witness :
    handleChatCompletionsStage
        (some ⟨"gpt-4", 10, true, true, true, true, true, true, none, none⟩)
        true 11 =
      .errorResponse 400 .invalidRequest (contextLimitMessage 11 10) :=
  (token_limit_recheck
      ⟨"gpt-4", 10, true, true, true, true, true, true, none, none⟩
      true 11 (by decide)).2.1 rfl

end CopilotLMAPI
